import Mathlib

/-!
Shallow embedding of the Shop-agent-chat repository's chat session
orchestration core: content normalization, the account-authorization gate,
the PKCE authorization-URL builder, the model stream adapter, the bounded
turn loop, the buffered event stream, and streaming error classification.
JavaScript runtime values are modelled by the `JSValue` type; platform
APIs (JSON.stringify, encodeURIComponent, the WHATWG URL parser) are
modelled by executable Lean functions restricted to the ASCII inputs the
repository feeds them.
-/

namespace ShopAgent

/-- Model of a JavaScript runtime value as far as the chat route needs it:
strings, arrays, plain objects (ordered field lists), null, undefined,
numbers and booleans. -/
inductive JSValue where
  | vstr (s : String)
  | varr (xs : List JSValue)
  | vobj (fields : List (String × JSValue))
  | vnull
  | vundefined
  | vnum (n : Int)
  | vbool (b : Bool)

/-- JavaScript truthiness of a value. -/
def jsTruthy : JSValue → Bool
  | .vstr s => !(s == "")
  | .varr _ => true
  | .vobj _ => true
  | .vnull => false
  | .vundefined => false
  | .vnum n => !(n == 0)
  | .vbool b => b

/-- Property access `v[k]` on an object value; `undefined` elsewhere. -/
def getField (v : JSValue) (k : String) : JSValue :=
  match v with
  | .vobj fields =>
    match fields.find? (fun kv => kv.1 == k) with
    | some kv => kv.2
    | none => .vundefined
  | _ => .vundefined

/-- Test whether the value's `type` field is the string `t`. -/
def isType (v : JSValue) (t : String) : Bool :=
  match getField v "type" with
  | .vstr s => s == t
  | _ => false

/-- Test for the branch `content && typeof content === "object" && content.type`
of normalizeContent (arrays are dispatched before this test runs). -/
def isObjWithType : JSValue → Bool
  | .vobj fields =>
    match fields.find? (fun kv => kv.1 == "type") with
    | some kv => jsTruthy kv.2
    | none => false
  | _ => false

/-- Is the value an array. -/
def isArr : JSValue → Bool
  | .varr _ => true
  | _ => false

/-- Escape a string for JSON output (model of the JSON.stringify string
escaper over the ASCII characters the repository produces). -/
def escapeJson (s : String) : String :=
  String.mk (s.data.foldr (fun c acc =>
    if c == '"' then '\\' :: '"' :: acc
    else if c == '\\' then '\\' :: '\\' :: acc
    else if c == '\n' then '\\' :: 'n' :: acc
    else c :: acc) [])

mutual

/-- Model of the platform's JSON.stringify on the values above (ASCII;
`undefined` is rendered as null rather than omitted, a simplification
that no call site of this repository distinguishes). -/
def jsonStringify : JSValue → String
  | .vstr s => "\"" ++ escapeJson s ++ "\""
  | .varr xs => "[" ++ jsonStringifyList xs ++ "]"
  | .vobj fields => "\x7b" ++ jsonStringifyFields fields ++ "\x7d"
  | .vnull => "null"
  | .vundefined => "null"
  | .vnum n => toString n
  | .vbool b => if b then "true" else "false"

/-- Comma-joined JSON rendering of an array's elements. -/
def jsonStringifyList : List JSValue → String
  | [] => ""
  | [x] => jsonStringify x
  | x :: xs => jsonStringify x ++ "," ++ jsonStringifyList xs

/-- Comma-joined JSON rendering of an object's fields. -/
def jsonStringifyFields : List (String × JSValue) → String
  | [] => ""
  | [kv] => "\"" ++ escapeJson kv.1 ++ "\":" ++ jsonStringify kv.2
  | kv :: kvs => "\"" ++ escapeJson kv.1 ++ "\":" ++ jsonStringify kv.2 ++ "," ++ jsonStringifyFields kvs

end

/-- Boolean prefix test on character lists. -/
def listIsPre : List Char → List Char → Bool
  | [], _ => true
  | _ :: _, [] => false
  | a :: as, b :: bs => a == b && listIsPre as bs

/-- Lower-case one ASCII character (model of toLowerCase on the ASCII
strings this repository compares). -/
def toLowerChar (c : Char) : Char :=
  if 'A' ≤ c && c ≤ 'Z' then Char.ofNat (c.toNat + 32) else c

/-- Lower-case a string characterwise. -/
def toLowerStr (s : String) : String :=
  String.mk (s.data.map toLowerChar)

/-- Replace every occurrence of the pattern `p :: ps` in a character list by
`rep`, scanning left to right (model of a global string replace). -/
def replaceChars (p : Char) (ps : List Char) (rep : List Char) : List Char → List Char
  | [] => []
  | c :: rest =>
    if listIsPre (p :: ps) (c :: rest) then rep ++ replaceChars p ps rep (rest.drop ps.length)
    else c :: replaceChars p ps rep rest
  termination_by l => l.length
  decreasing_by
    · simp [List.length_drop]; omega
    · simp

/-- Replace every occurrence of a non-empty pattern string (model of the
global-regex String.replace calls of generateAuthUrl). -/
def strReplaceAll (s pat rep : String) : String :=
  match pat.data with
  | [] => s
  | p :: ps => String.mk (replaceChars p ps rep.data s.data)

/-- Model of JavaScript's `hay.includes(needle)`: substring containment. -/
def strContains (hay needle : String) : Bool :=
  (List.range (hay.data.length + 1)).any fun i => listIsPre needle.data (hay.data.drop i)

/-- The `{type:"text", text:t}` content block. -/
def textBlock (t : String) : JSValue :=
  .vobj [("type", .vstr "text"), ("text", .vstr t)]

/-- The `{type:"tool_use", id, name, input}` content block. -/
def toolUseBlock (id name : String) (input : JSValue) : JSValue :=
  .vobj [("type", .vstr "tool_use"), ("id", .vstr id), ("name", .vstr name), ("input", input)]

/-- The `{type:"tool_result", tool_use_id, content, is_error}` content block. -/
def toolResultBlock (toolUseId : String) (content : JSValue) (isError : Bool) : JSValue :=
  .vobj [("type", .vstr "tool_result"), ("tool_use_id", .vstr toolUseId),
         ("content", content), ("is_error", .vbool isError)]

/-- Embedding of normalizeContent from the chat route: arrays are returned
as-is, a type-tagged object is wrapped into a one-element array, and any
other value becomes a single text block, a string keeping its own text and
anything else getting `JSON.stringify(content || "")`. -/
def normalizeContent (content : JSValue) : List JSValue :=
  match content with
  | .varr xs => xs
  | _ =>
    if isObjWithType content then [content]
    else
      let text := match content with
        | .vstr s => s
        | _ => jsonStringify (if jsTruthy content then content else .vstr "")
      [textBlock text]

/-- The fixed account-intent keyword vocabulary of isAccountDataRequest. -/
def accountKeywords : List String :=
  ["my account", "my orders", "my order", "order history", "order status",
   "tracking", "track my order", "my purchases", "my profile", "account info",
   "customer info", "my details", "my information", "login", "sign in"]

/-- Embedding of isAccountDataRequest: containment of any keyword in the
lower-cased message. -/
def isAccountDataRequest (message : String) : Bool :=
  accountKeywords.any fun keyword => strContains (toLowerStr message) keyword

/-- A stored customer token row, as far as isCustomerAuthenticated reads it. -/
structure CustomerToken where
  accessToken : String

/-- Embedding of isCustomerAuthenticated: the conversation's token row must
exist and carry a truthy accessToken. -/
def isCustomerAuthenticated (token : Option CustomerToken) : Bool :=
  match token with
  | some t => !(t.accessToken == "")
  | none => false

/-- Hexadecimal digit character for a value below 16 (uppercase). -/
def hexDigitChar (n : Nat) : Char :=
  if n < 10 then Char.ofNat ('0'.toNat + n) else Char.ofNat ('A'.toNat + (n - 10))

/-- Percent-encode one character (model of encodeURIComponent and of the
URLSearchParams serializer over the ASCII characters this repository uses;
characters left bare are alphanumerics and `-` `_` `.` `~`). -/
def encChar (c : Char) : List Char :=
  if c.isAlphanum || c == '-' || c == '_' || c == '.' || c == '~' then [c]
  else ['%', hexDigitChar (c.toNat / 16 % 16), hexDigitChar (c.toNat % 16)]

/-- Percent-encode a string componentwise. -/
def encForm (s : String) : String :=
  String.mk (s.data.foldr (fun c acc => encChar c ++ acc) [])

/-- Hexadecimal value of a digit character. -/
def hexVal (c : Char) : Option Nat :=
  if '0' ≤ c && c ≤ '9' then some (c.toNat - '0'.toNat)
  else if 'A' ≤ c && c ≤ 'F' then some (c.toNat - 'A'.toNat + 10)
  else if 'a' ≤ c && c ≤ 'f' then some (c.toNat - 'a'.toNat + 10)
  else none

/-- Percent-decode a character list (model of URLSearchParams parsing). -/
def decodeChars : List Char → List Char
  | [] => []
  | '%' :: h1 :: h2 :: rest =>
    match hexVal h1, hexVal h2 with
    | some a, some b => Char.ofNat (16 * a + b) :: decodeChars rest
    | _, _ => '%' :: decodeChars (h1 :: h2 :: rest)
  | '+' :: rest => ' ' :: decodeChars rest
  | c :: rest => c :: decodeChars rest

/-- Percent-decode a string. -/
def percentDecode (s : String) : String :=
  String.mk (decodeChars s.data)

/-- Parsed form of a URL: the part before the query plus decoded query
parameters in order. -/
structure UrlModel where
  base : String
  params : List (String × String)

/-- Split one `key=value` query piece at the first equals sign. -/
def parseQueryPiece (piece : String) : String × String :=
  let k := piece.data.takeWhile (fun c => c != '=')
  let rest := piece.data.dropWhile (fun c => c != '=')
  match rest with
  | [] => (percentDecode (String.mk k), "")
  | _ :: vs => (percentDecode (String.mk k), percentDecode (String.mk vs))

/-- Split a character list at every ampersand. -/
def splitAmpChars : List Char → List (List Char)
  | [] => [[]]
  | c :: rest =>
    if c == '&' then [] :: splitAmpChars rest
    else
      match splitAmpChars rest with
      | [] => [[c]]
      | piece :: pieces => (c :: piece) :: pieces

/-- Parse a query string into decoded key-value pairs, skipping empty pieces. -/
def parseQueryString (q : String) : List (String × String) :=
  (splitAmpChars q.data).filterMap fun piece =>
    if piece.isEmpty then none else some (parseQueryPiece (String.mk piece))

/-- Model of the platform's `new URL(s)` as far as generateAuthUrl uses it:
http(s) URLs are split into a pre-query base and decoded search parameters;
anything else is treated as a parse failure (the thrown-TypeError branch). -/
def parseUrlModel (s : String) : Option UrlModel :=
  if listIsPre "http://".data s.data || listIsPre "https://".data s.data then
    let base := String.mk (s.data.takeWhile (fun c => c != '?'))
    let rest := s.data.dropWhile (fun c => c != '?')
    let params := match rest with
      | [] => []
      | _ :: qs => parseQueryString (String.mk qs)
    some ⟨base, params⟩
  else none

/-- Model of `URLSearchParams.set`: replace the first binding of the key and
drop later duplicates, or append a fresh binding at the end. -/
def setParam : List (String × String) → String → String → List (String × String)
  | [], k, v => [(k, v)]
  | (k', v') :: rest, k, v =>
    if k' == k then (k, v) :: rest.filter (fun kv => !(kv.1 == k))
    else (k', v') :: setParam rest k v

/-- Ampersand-joined rendering of encoded query pairs. -/
def joinAmp : List String → String
  | [] => ""
  | [x] => x
  | x :: xs => x ++ "&" ++ joinAmp xs

/-- Model of `URL.toString()`: base, then the serialized search parameters. -/
def urlToString (u : UrlModel) : String :=
  if u.params.isEmpty then u.base
  else u.base ++ "?" ++ joinAmp (u.params.map fun p => encForm p.1 ++ "=" ++ encForm p.2)

/-- Return shape of generateAuthUrl, with the verifier-persistence side
effect made explicit: `verifierStored` records whether storeCodeVerifier
succeeded (its failure is caught and only logged by the source). -/
structure AuthUrlResult where
  url : String
  conversation_id : String
  verifierStored : Bool

/-- The fixed redirect URI of generateAuthUrl. -/
def redirectUri : String :=
  "https://shopify-agent-003f.webgeeksolutions.com.au/api/auth/callback"

/-- The default Shopify authorization endpoint. -/
def defaultAuthEndpoint : String :=
  "https://accounts.shopify.com/oauth/authorize"

/-- Embedding of generateAuthUrl from auth.server.js. Nondeterministic and
external inputs are parameters: `clientId` (environment), `dbAuthorizationUrl`
(the stored customer-account authorization endpoint read by getBaseAuthUrl),
`challenge` (the PKCE S256 challenge derived from the random verifier), and
`storeOk` (whether storeCodeVerifier succeeds; its failure is swallowed). -/
def generateAuthUrl (conversationId shopId clientId : String)
    (dbAuthorizationUrl : Option String) (challenge : String) (storeOk : Bool) :
    AuthUrlResult :=
  let scope := "customer-account-mcp-api:full"
  let responseType := "code"
  let state := conversationId ++ "-" ++ shopId
  let codeChallengeMethod := "S256"
  let fromDb := match dbAuthorizationUrl with
    | some s => if s == "" then defaultAuthEndpoint else s
    | none => defaultAuthEndpoint
  let baseAuthUrl0 := if fromDb == "" then defaultAuthEndpoint else fromDb
  let baseAuthUrl1 :=
    if strContains baseAuthUrl0 "\x7bredirect_uri\x7d" then
      strReplaceAll baseAuthUrl0 "\x7bredirect_uri\x7d" (encForm redirectUri)
    else baseAuthUrl0
  let baseAuthUrl :=
    if strContains baseAuthUrl1 "\x7bclient_id\x7d" then
      strReplaceAll baseAuthUrl1 "\x7bclient_id\x7d" clientId
    else baseAuthUrl1
  let authUrl :=
    match parseUrlModel baseAuthUrl with
    | some u =>
      let ps := u.params.filter (fun kv => !(kv.1 == "redirect_uri"))
      let ps := setParam ps "client_id" clientId
      let ps := setParam ps "scope" scope
      let ps := setParam ps "redirect_uri" redirectUri
      let ps := setParam ps "response_type" responseType
      let ps := setParam ps "state" state
      let ps := setParam ps "code_challenge" challenge
      let ps := setParam ps "code_challenge_method" codeChallengeMethod
      urlToString ⟨u.base, ps⟩
    | none =>
      baseAuthUrl ++ "?client_id=" ++ clientId ++ "&scope=" ++ encForm scope ++
        "&redirect_uri=" ++ encForm redirectUri ++ "&response_type=" ++ responseType ++
        "&state=" ++ state ++ "&code_challenge=" ++ challenge ++
        "&code_challenge_method=" ++ codeChallengeMethod
  { url := authUrl, conversation_id := conversationId, verifierStored := storeOk }

/-- The authorization prompt text built by handleChatSession around the URL. -/
def authPromptText (url : String) : String :=
  "To access your account information, orders, and order tracking, I need you to authorize access to your customer data. [Click here to authorize](" ++ url ++ ")"

/-- A client-facing event sent through the stream manager, one constructor
per `type` tag the chat route emits. -/
inductive Event where
  | id (conversationId : String)
  | chunk (s : String)
  | messageComplete
  | toolUse (toolUseMessage : String)
  | newMessage
  | contentBlockComplete (b : JSValue)
  | endTurn
  | productResults (products : List JSValue)
  | done

/-- One role-tagged turn of the working history: role plus content blocks. -/
structure Turn where
  role : String
  content : List JSValue

/-- An event emitted by the provider SDK stream before the final message:
a text delta or a completed content block. -/
inductive ProvEvent where
  | textDelta (s : String)
  | blockDone (b : JSValue)

/-- One provider invocation's behavior: the streamed events in emission
order, then the final message's role, content blocks and stop reason. -/
structure ModelRound where
  events : List ProvEvent
  content : List JSValue
  stopReason : Option String
  role : String

/-- The Tool Gateway's result envelope for one callTool invocation: an
`error` field whose truthiness selects the failure path, a payload, and any
display items the success path merges into the product accumulator. -/
structure ToolEnvelope where
  error : JSValue
  payload : JSValue
  displayItems : List JSValue

/-- A handler-channel call made by the model stream adapter during one
streamConversation invocation. -/
inductive HandlerCall where
  | text (s : String)
  | contentBlock (b : JSValue)
  | message
  | toolUse (b : JSValue)

/-- Translation of a provider stream event to the handler it triggers. -/
def provEventToCall : ProvEvent → HandlerCall
  | .textDelta s => .text s
  | .blockDone b => .contentBlock b

/-- Is a content block a tool_use request. -/
def isToolUseBlock (b : JSValue) : Bool := isType b "tool_use"

/-- Embedding of streamConversation from claude.server.js as the sequence of
handler calls it makes for one invocation: the provider's streamed events
are forwarded in emission order, the `message` handler fires once when the
final message is assembled, and only then is each tool_use block of the
final content handed to the tool-use handler, in content order. -/
def streamConversationCalls (round : ModelRound) : List HandlerCall :=
  round.events.map provEventToCall ++ [HandlerCall.message] ++
    (round.content.filter isToolUseBlock).map HandlerCall.toolUse

/-- In-session mutable state of handleChatSession: emitted events, messages
saved to the store, the working history, the product accumulator, and the
number of Tool Gateway calls made. -/
structure SessState where
  events : List Event
  saved : List (String × String)
  history : List Turn
  products : List JSValue
  toolCalls : Nat

/-- Send one event to the client stream. -/
def emitEv (st : SessState) (e : Event) : SessState :=
  { st with events := st.events ++ [e] }

/-- The onText/onContentBlock handlers of handleChatSession: text deltas are
relayed as chunk events; completed content blocks are relayed only when
their type is text. -/
def relayProvEvent (st : SessState) (pe : ProvEvent) : SessState :=
  match pe with
  | .textDelta s => emitEv st (.chunk s)
  | .blockDone b => if isType b "text" then emitEv st (.contentBlockComplete b) else st

/-- The onMessage handler of handleChatSession: push the assistant turn onto
the working history, persist its serialized content, and emit
message_complete. -/
def onMessageStep (round : ModelRound) (st : SessState) : SessState :=
  { st with
    history := st.history ++ [⟨round.role, round.content⟩]
    saved := st.saved ++ [(round.role, jsonStringify (.varr round.content))]
    events := st.events ++ [.messageComplete] }

/-- Modelled from the spec: tool.server.js (createToolService with
handleToolError and handleToolSuccess) is not among the source files, only
its caller is. Per the spec, a Failure outcome folds an error-tagged
ToolResult block into the working history, and a Success outcome folds a
normal ToolResult block and merges the display items into the product
accumulator. The selection on a truthy `error` field is the caller's code. -/
def reconcileTool (env : ToolEnvelope) (toolUseId : String) (st : SessState) : SessState :=
  if jsTruthy env.error then
    { st with history := st.history ++ [⟨"user", [toolResultBlock toolUseId env.error true]⟩] }
  else
    { st with
      history := st.history ++ [⟨"user", [toolResultBlock toolUseId env.payload false]⟩]
      products := st.products ++ env.displayItems }

/-- The onToolUse handler of handleChatSession for one content block: on a
tool_use block, emit the tool_use description, call the Tool Gateway,
reconcile the envelope into the session state, and emit new_message. -/
def toolStep (gateway : String → JSValue → ToolEnvelope) (st : SessState) (b : JSValue) : SessState :=
  if isToolUseBlock b then
    let name := match getField b "name" with | .vstr s => s | _ => ""
    let args := getField b "input"
    let toolUseId := match getField b "id" with | .vstr s => s | _ => ""
    let st := emitEv st (.toolUse ("Calling tool: " ++ name ++ " with arguments: " ++ jsonStringify args))
    let env := gateway name args
    let st := { st with toolCalls := st.toolCalls + 1 }
    let st := reconcileTool env toolUseId st
    emitEv st .newMessage
  else st

/-- One full streamConversation invocation as seen by handleChatSession's
handlers: relay the streamed events, run onMessage, then run onToolUse for
each content block of the final message. -/
def runInvocation (gateway : String → JSValue → ToolEnvelope) (round : ModelRound)
    (st : SessState) : SessState :=
  let st := round.events.foldl relayProvEvent st
  let st := onMessageStep round st
  round.content.foldl (toolStep gateway) st

/-- The turn loop of handleChatSession: while the last stop reason is not
end_turn and fewer than six rounds have run, invoke the model; break as soon
as a round reports no stop reason at all. Returns the final state and the
number of model invocations. The fuel argument only reifies the bounded
while loop; it is started at 7 which the six-round ceiling never exhausts. -/
def sessionLoopGo (script : Nat → ModelRound) (gateway : String → JSValue → ToolEnvelope)
    (st : SessState) (stop : Option String) (counter : Nat) : Nat → SessState × Nat
  | 0 => (st, counter)
  | fuel + 1 =>
    if stop = some "end_turn" ∨ 6 ≤ counter then (st, counter)
    else
      match (script counter).stopReason with
      | none => (runInvocation gateway (script counter) st, counter + 1)
      | some r =>
        sessionLoopGo script gateway (runInvocation gateway (script counter) st)
          (some r) (counter + 1) fuel

/-- External inputs of one chat session: the trimmed user message, the
conversation id, request headers (shop id), environment (client id), the
conversation's stored customer token, the stored authorization endpoint,
the PKCE challenge, whether the verifier store succeeds, the prior messages
returned by the store, and the platform JSON parser used on stored content. -/
structure SessionConfig where
  userMessage : String
  conversationId : String
  shopId : String
  clientId : String
  customerToken : Option CustomerToken
  dbAuthorizationUrl : Option String
  challenge : String
  storeOk : Bool
  priorMessages : List (String × String)
  parseJson : String → Option JSValue

/-- The authorization gate condition of handleChatSession: account intent
detected and no authenticated customer. -/
def authGateTriggered (cfg : SessionConfig) : Bool :=
  isAccountDataRequest cfg.userMessage && !(isCustomerAuthenticated cfg.customerToken)

/-- Reconstruction of one stored message row into a working-history turn:
parse the serialized content where possible, keep it as a plain string
otherwise, coerce the role, and normalize into content-block form. -/
def formatDbMessage (parseJson : String → Option JSValue) (row : String × String) : Turn :=
  let content := match parseJson row.2 with
    | some v => v
    | none => .vstr row.2
  { role := if row.1 == "assistant" then "assistant" else "user"
    content := normalizeContent content }

/-- Observable outcome of one chat session: the events sent, the messages
appended to the store, the final working history and product accumulator,
the Tool Gateway call count, the model invocation count, and which of the
two paths ran. -/
structure SessionResult where
  events : List Event
  saved : List (String × String)
  history : List Turn
  products : List JSValue
  toolCalls : Nat
  invocations : Nat
  tookAuthPath : Bool

/-- Embedding of handleChatSession: either the authorization short-circuit
(account intent and no valid token: save the user message and the assistant
authorization prompt, emit id, chunk, message_complete, done, and return
without touching the model), or the normal turn: emit id, save the user
message, seed the working history from the store, run the bounded turn
loop, emit end_turn and, when the product accumulator is non-empty, one
product_results event. -/
def handleChatSession (cfg : SessionConfig) (script : Nat → ModelRound)
    (gateway : String → JSValue → ToolEnvelope) : SessionResult :=
  if authGateTriggered cfg then
    let auth := generateAuthUrl cfg.conversationId cfg.shopId cfg.clientId
      cfg.dbAuthorizationUrl cfg.challenge cfg.storeOk
    let authMessage := authPromptText auth.url
    { events := [.id cfg.conversationId, .chunk authMessage, .messageComplete, .done]
      saved := [("user", cfg.userMessage), ("assistant", authMessage)]
      history := []
      products := []
      toolCalls := 0
      invocations := 0
      tookAuthPath := true }
  else
    let st0 : SessState :=
      { events := [.id cfg.conversationId]
        saved := [("user", cfg.userMessage)]
        history := (cfg.priorMessages ++ [("user", cfg.userMessage)]).map (formatDbMessage cfg.parseJson)
        products := []
        toolCalls := 0 }
    let out := sessionLoopGo script gateway st0 none 0 7
    let st := out.1
    { events := st.events ++ [.endTurn] ++
        (if st.products.isEmpty then [] else [.productResults st.products])
      saved := st.saved
      history := st.history
      products := st.products
      toolCalls := st.toolCalls
      invocations := out.2
      tookAuthPath := false }

/-- Internal state of createBufferedStream: the event log, the collected
text chunks, and the tracked product set. -/
structure BufState where
  events : List Event
  textChunks : List String
  products : List JSValue

/-- The sendMessage method of createBufferedStream: log every payload,
collect chunk text separately, and let a product_results payload overwrite
the tracked product set. -/
def bufSend (st : BufState) (p : Event) : BufState :=
  let st := { st with events := st.events ++ [p] }
  match p with
  | .chunk s => { st with textChunks := st.textChunks ++ [s] }
  | .productResults ps => { st with products := ps }
  | _ => st

/-- Run the buffered stream over a payload sequence from the empty state. -/
def runBufferedStream (payloads : List Event) : BufState :=
  payloads.foldl bufSend ⟨[], [], []⟩

/-- Materialized result of createBufferedStream's getResult. -/
structure BufResult where
  text : String
  events : List Event
  products : List JSValue

/-- The getResult method: concatenated text, full event log, product set. -/
def bufGetResult (st : BufState) : BufResult :=
  ⟨String.join st.textChunks, st.events, st.products⟩

/-- The JSON document handleChatRequest returns to non-SSE clients. -/
structure ChatJsonResponse where
  conversation_id : String
  message : String
  products : List JSValue
  events : List Event

/-- Embedding of handleChatRequest's buffered (non-SSE) branch: run the
session against a buffered stream and package conversation id, concatenated
text, products and the event log into one JSON document. -/
def handleChatRequestBuffered (cfg : SessionConfig) (script : Nat → ModelRound)
    (gateway : String → JSValue → ToolEnvelope) : ChatJsonResponse :=
  let r := bufGetResult (runBufferedStream (handleChatSession cfg script gateway).events)
  ⟨cfg.conversationId, r.text, r.products, r.events⟩

/-- An error value reaching handleStreamingError, as far as it reads one:
an optional numeric status and a message that may fail the string check. -/
structure JsError where
  status : Option Int
  message : Option String

/-- The payload handed to sendError: type tag, title and details. -/
structure ErrorPayload where
  type : String
  error : String
  details : String
  deriving DecidableEq

/-- Embedding of handleStreamingError from streaming.server.js: status 401
or a lower-cased message containing auth or key selects the authentication
failure; otherwise status 429 or 529 or a message containing Overloaded
selects the rate-limit event; anything else is the generic failure carrying
the message, or Unknown error when the message is empty. -/
def handleStreamingError (e : JsError) : ErrorPayload :=
  let message := match e.message with
    | some s => s
    | none => ""
  if e.status = some 401 || strContains (toLowerStr message) "auth" || strContains (toLowerStr message) "key" then
    ⟨"error", "Authentication failed with Claude API",
      "Please check your API key in environment variables"⟩
  else if e.status = some 429 || e.status = some 529 || strContains message "Overloaded" then
    ⟨"rate_limit_exceeded", "Rate limit exceeded", "Please try again later"⟩
  else
    ⟨"error", "Failed to get response from Claude",
      if message == "" then "Unknown error" else message⟩

/-- The chunk payload of an event, when it is a chunk event. -/
def chunkText : Event → Option String
  | .chunk s => some s
  | _ => none

/-- Is a handler call the message-complete call. -/
def isMessageCall : HandlerCall → Bool
  | .message => true
  | _ => false

/-- Is a handler call a tool-use-request call. -/
def isToolUseCall : HandlerCall → Bool
  | .toolUse _ => true
  | _ => false

/-- The authentication-failure condition of handleStreamingError: status 401
or a lower-cased message containing auth or key. -/
def authErrorCond (e : JsError) : Bool :=
  let message := match e.message with
    | some s => s
    | none => ""
  e.status = some 401 || strContains (toLowerStr message) "auth" || strContains (toLowerStr message) "key"

/-- The rate-limit condition of handleStreamingError: status 429 or 529 or
a message containing Overloaded. -/
def rateLimitCond (e : JsError) : Bool :=
  let message := match e.message with
    | some s => s
    | none => ""
  e.status = some 429 || e.status = some 529 || strContains message "Overloaded"

/-- The fixed authentication-failure payload. -/
def authFailurePayload : ErrorPayload :=
  ⟨"error", "Authentication failed with Claude API",
    "Please check your API key in environment variables"⟩

/-- The fixed rate-limit payload. -/
def rateLimitPayload : ErrorPayload :=
  ⟨"rate_limit_exceeded", "Rate limit exceeded", "Please try again later"⟩

/-- The generic failure payload of handleStreamingError: the raw message,
or Unknown error when the message is empty or absent. -/
def genericPayload (e : JsError) : ErrorPayload :=
  let message := match e.message with
    | some s => s
    | none => ""
  ⟨"error", "Failed to get response from Claude",
    if message == "" then "Unknown error" else message⟩

theorem strData_app (s t : String) : (s ++ t).data = s.data ++ t.data := rfl

theorem listIsPre_app (l t : List Char) : listIsPre l (l ++ t) = true := by
  induction l with
  | nil => rfl
  | cons a as ih => simp [listIsPre, ih]

theorem listIsPre_parts : ∀ {n l : List Char}, listIsPre n l = true → ∃ t, l = n ++ t := by
  intro n
  induction n with
  | nil => exact fun h => ⟨_, rfl⟩
  | cons a as ih =>
    intro l h
    cases l with
    | nil => simp [listIsPre] at h
    | cons b bs =>
      simp only [listIsPre, Bool.and_eq_true, beq_iff_eq] at h
      obtain ⟨t, ht⟩ := ih h.2
      exact ⟨t, by rw [ht, h.1]; rfl⟩

theorem strContains_of_parts (h n : String) (s t : List Char)
    (he : h.data = s ++ (n.data ++ t)) : strContains h n = true := by
  unfold strContains
  rw [List.any_eq_true]
  refine ⟨s.length, List.mem_range.mpr ?_, ?_⟩
  · rw [he]; simp [List.length_append]; omega
  · rw [he, List.drop_left]
    exact listIsPre_app n.data t

theorem strContains_parts {h n : String} (hc : strContains h n = true) :
    ∃ s t, h.data = s ++ (n.data ++ t) := by
  unfold strContains at hc
  rw [List.any_eq_true] at hc
  obtain ⟨i, _, hp⟩ := hc
  obtain ⟨t, ht⟩ := listIsPre_parts hp
  refine ⟨h.data.take i, t, ?_⟩
  conv_lhs => rw [← List.take_append_drop i h.data]
  rw [ht]

theorem strContains_app_left (a b n : String) (hc : strContains b n = true) :
    strContains (a ++ b) n = true := by
  obtain ⟨s, t, hp⟩ := strContains_parts hc
  exact strContains_of_parts _ n (a.data ++ s) t
    (by rw [strData_app, hp, List.append_assoc])

theorem strContains_app_right (a b n : String) (hc : strContains a n = true) :
    strContains (a ++ b) n = true := by
  obtain ⟨s, t, hp⟩ := strContains_parts hc
  exact strContains_of_parts _ n s (t ++ b.data)
    (by rw [strData_app, hp]; simp [List.append_assoc])

theorem strContains_self (n : String) : strContains n n = true :=
  strContains_of_parts n n [] [] (by simp)

/-- C4: content normalization is idempotent: every array of content blocks
is returned unchanged, so a second normalization returns the first's result
unchanged, and the bare string "hi" normalizes to a single text block. -/
theorem c4_normalize_idempotent :
    (∀ xs : List JSValue, normalizeContent (.varr xs) = xs) ∧
    (∀ v : JSValue, normalizeContent (.varr (normalizeContent v)) = normalizeContent v) ∧
    normalizeContent (.vstr "hi") = [textBlock "hi"] :=
  ⟨fun _ => rfl, fun _ => rfl, rfl⟩

/-- C9 counterexample: normalizeContent can return an empty array (the
empty array input is returned as-is), and the number 0 becomes a text block
whose text is the stringification of the empty string, not of 0 — so the
claim that the result is always non-empty and that non-string values keep
their own JSON stringification is false as stated. -/
theorem c9_counterexample :
    normalizeContent (.varr []) = [] ∧
    normalizeContent (.vnum 0) = [textBlock "\"\""] ∧
    ¬ normalizeContent (.vnum 0) = [textBlock "0"] := by
  refine ⟨rfl, rfl, fun h => ?_⟩
  rw [show normalizeContent (.vnum 0) = [textBlock "\"\""] from rfl] at h
  simp only [textBlock] at h
  injection h with h1 h2
  injection h1 with h3
  injection h3 with h4 h5
  injection h5 with h6 h7
  have h8 := congrArg Prod.snd h6
  injection h8 with h9
  exact absurd h9 (by decide)

/-- C9 (amended): normalizeContent is total and case-complete: arrays are
returned as-is (hence the empty array yields an empty result and
non-emptiness holds only for non-array inputs), a non-array type-tagged
object is wrapped into a one-element array, a string s becomes a single
text block with text s, and every other value v becomes a single text block
whose text is the JSON stringification of v when v is truthy and of the
empty string otherwise. -/
theorem c9_normalize_total :
    (∀ xs : List JSValue, normalizeContent (.varr xs) = xs) ∧
    (∀ v : JSValue, isArr v = false → isObjWithType v = true → normalizeContent v = [v]) ∧
    (∀ s : String, normalizeContent (.vstr s) = [textBlock s]) ∧
    (∀ v : JSValue, isArr v = false → isObjWithType v = false → (∀ s, v ≠ .vstr s) →
      normalizeContent v = [textBlock (jsonStringify (if jsTruthy v then v else .vstr ""))]) ∧
    (∀ v : JSValue, isArr v = false → normalizeContent v ≠ []) := by
  refine ⟨fun _ => rfl, ?_, ?_, ?_, ?_⟩
  · intro v ha ht
    cases v <;> simp_all [normalizeContent, isArr]
  · intro s
    rfl
  · intro v ha ht hs
    cases v with
    | vstr s => exact absurd rfl (hs s)
    | varr xs => simp [isArr] at ha
    | _ => simp_all [normalizeContent]
  · intro v ha
    cases v <;> simp [normalizeContent, isArr] at ha ⊢ <;> split <;> simp

/-- C9 witness: the amended characterization applied at a concrete tagged
object and at null. -/
theorem c9_normalize_total_witness :
    (isArr (.vobj [("type", .vstr "text"), ("text", .vstr "x")]) = false ∧
      isObjWithType (.vobj [("type", .vstr "text"), ("text", .vstr "x")]) = true ∧
      normalizeContent (.vobj [("type", .vstr "text"), ("text", .vstr "x")]) =
        [.vobj [("type", .vstr "text"), ("text", .vstr "x")]]) ∧
    (isArr .vnull = false ∧ normalizeContent .vnull ≠ []) :=
  ⟨⟨rfl, rfl, c9_normalize_total.2.1 _ rfl rfl⟩,
   ⟨rfl, c9_normalize_total.2.2.2.2 _ rfl⟩⟩

/-- C10: generateAuthUrl never fails due to verifier-persistence failure:
with the store failing it returns the same URL and the conversation id, the
only difference being that no verifier was stored. -/
theorem c10_store_failure_nonfatal (cid sid clid ch : String) (dbUrl : Option String) :
    generateAuthUrl cid sid clid dbUrl ch false =
      ⟨(generateAuthUrl cid sid clid dbUrl ch true).url, cid, false⟩ ∧
    (generateAuthUrl cid sid clid dbUrl ch false).verifierStored = false ∧
    (generateAuthUrl cid sid clid dbUrl ch true).verifierStored = true :=
  ⟨rfl, rfl, rfl⟩

/-- C8 counterexample: an error with no status and an empty message falls
into the generic class, but the emitted details are the fixed Unknown error
text, not the raw (empty) error message — so the claim that the generic
event carries the raw message is false as stated. -/
theorem c8_counterexample :
    handleStreamingError ⟨none, some ""⟩ =
      ⟨"error", "Failed to get response from Claude", "Unknown error"⟩ ∧
    (handleStreamingError ⟨none, some ""⟩).details ≠ "" :=
  ⟨rfl, by decide⟩

/-- C8 (amended): handleStreamingError classifies every error into exactly
one of three payloads: the authentication-failure payload exactly when the
status is 401 or the lower-cased message contains auth or key; otherwise the
rate-limit payload exactly when the status is 429 or 529 or the message
contains Overloaded; otherwise the generic payload carrying the raw message
when it is non-empty and Unknown error otherwise. -/
theorem c8_error_classification (e : JsError) :
    (authErrorCond e = true → handleStreamingError e = authFailurePayload) ∧
    (authErrorCond e = false → rateLimitCond e = true →
      handleStreamingError e = rateLimitPayload) ∧
    (authErrorCond e = false → rateLimitCond e = false →
      handleStreamingError e = genericPayload e) ∧
    (handleStreamingError e = authFailurePayload ↔ authErrorCond e = true) ∧
    (handleStreamingError e = rateLimitPayload ↔
      (authErrorCond e = false ∧ rateLimitCond e = true)) := by
  have hmain : handleStreamingError e =
      (if authErrorCond e then authFailurePayload
       else if rateLimitCond e then rateLimitPayload else genericPayload e) := rfl
  have hne1 : ¬ (authFailurePayload = rateLimitPayload) := by decide
  have hge : (genericPayload e).error = "Failed to get response from Claude" := rfl
  have hgt : (genericPayload e).type = "error" := rfl
  have hne2 : ¬ (genericPayload e = authFailurePayload) := fun h => by
    have h2 := congrArg ErrorPayload.error h
    rw [hge] at h2
    exact absurd h2 (by decide)
  have hne3 : ¬ (genericPayload e = rateLimitPayload) := fun h => by
    have h2 := congrArg ErrorPayload.type h
    rw [hgt] at h2
    exact absurd h2 (by decide)
  have hT : ∀ A B : ErrorPayload, (if (true : Bool) = true then A else B) = A := fun _ _ => rfl
  have hF : ∀ A B : ErrorPayload, (if (false : Bool) = true then A else B) = B := fun _ _ => rfl
  cases ha : authErrorCond e with
  | true =>
    rw [hmain, ha, hT]
    exact ⟨fun _ => rfl,
      fun hfa _ => Bool.noConfusion hfa,
      fun hfa _ => Bool.noConfusion hfa,
      ⟨fun _ => rfl, fun _ => rfl⟩,
      ⟨fun h => absurd h hne1, fun h => Bool.noConfusion h.1⟩⟩
  | false =>
    cases hr : rateLimitCond e with
    | true =>
      rw [hmain, ha, hr, hF, hT]
      exact ⟨fun hta => Bool.noConfusion hta,
        fun _ _ => rfl,
        fun _ hfr => Bool.noConfusion hfr,
        ⟨fun h => absurd h.symm hne1, fun hta => Bool.noConfusion hta⟩,
        ⟨fun _ => ⟨rfl, rfl⟩, fun _ => rfl⟩⟩
    | false =>
      rw [hmain, ha, hr, hF, hF]
      exact ⟨fun hta => Bool.noConfusion hta,
        fun _ htr => Bool.noConfusion htr,
        fun _ _ => rfl,
        ⟨fun h => absurd h hne2, fun hta => Bool.noConfusion hta⟩,
        ⟨fun h => absurd h hne3, fun h => Bool.noConfusion h.2⟩⟩

/-- C8 witness: the classification applied to a 401 error and to a plain
failure whose raw message is carried through. -/
theorem c8_error_classification_witness :
    (authErrorCond ⟨some 401, none⟩ = true ∧
      handleStreamingError ⟨some 401, none⟩ = authFailurePayload) ∧
    (authErrorCond ⟨none, some "boom"⟩ = false ∧
      rateLimitCond ⟨none, some "boom"⟩ = false ∧
      handleStreamingError ⟨none, some "boom"⟩ =
        ⟨"error", "Failed to get response from Claude", "boom"⟩) :=
  ⟨⟨by decide, (c8_error_classification _).1 (by decide)⟩,
   ⟨by decide, by decide, (c8_error_classification _).2.2.1 (by decide) (by decide)⟩⟩

theorem countP_msg_map_prov (l : List ProvEvent) :
    (l.map provEventToCall).countP isMessageCall = 0 := by
  induction l with
  | nil => rfl
  | cons pe rest ih => cases pe <;> simp [provEventToCall, isMessageCall, ih, List.countP_cons]

theorem countP_msg_map_tool (l : List JSValue) :
    (l.map HandlerCall.toolUse).countP isMessageCall = 0 := by
  induction l with
  | nil => rfl
  | cons b rest ih => simp [isMessageCall, ih, List.countP_cons]

/-- C5 counterexample: for a completed message containing one tool_use
block, the adapter fires the message-complete handler and then still fires
the tool-use handler, so message-complete is not terminal for the
invocation and does not come after the tool-use calls. -/
theorem c5_counterexample :
    streamConversationCalls ⟨[.textDelta "hi"], [toolUseBlock "t1" "X" (.vobj [])], some "tool_use", "assistant"⟩ =
      [.text "hi", .message, .toolUse (toolUseBlock "t1" "X" (.vobj []))] ∧
    (streamConversationCalls ⟨[.textDelta "hi"], [toolUseBlock "t1" "X" (.vobj [])], some "tool_use", "assistant"⟩).getLast?
      ≠ some HandlerCall.message := by
  refine ⟨rfl, fun h => ?_⟩
  rw [show (streamConversationCalls ⟨[.textDelta "hi"], [toolUseBlock "t1" "X" (.vobj [])], some "tool_use", "assistant"⟩).getLast?
      = some (HandlerCall.toolUse (toolUseBlock "t1" "X" (.vobj []))) from rfl] at h
  simp at h

/-- C5 (amended): during one streamConversation invocation the handlers
fire as the provider's streamed text-delta and content-block events in
emission order, then exactly one message-complete call, then one
tool-use-request call per tool_use block of the completed message in
content order; message-complete is terminal only when the completed message
requested no tool calls. -/
theorem c5_adapter_call_order (round : ModelRound) :
    streamConversationCalls round =
      round.events.map provEventToCall ++ [HandlerCall.message] ++
        (round.content.filter isToolUseBlock).map HandlerCall.toolUse ∧
    (streamConversationCalls round).countP isMessageCall = 1 ∧
    (∀ c ∈ round.events.map provEventToCall, isMessageCall c = false ∧ isToolUseCall c = false) ∧
    ((round.content.filter isToolUseBlock) = [] →
      (streamConversationCalls round).getLast? = some HandlerCall.message) := by
  refine ⟨rfl, ?_, ?_, ?_⟩
  · unfold streamConversationCalls
    rw [List.countP_append, List.countP_append, countP_msg_map_prov, countP_msg_map_tool]
    rfl
  · intro c hc
    obtain ⟨pe, _, rfl⟩ := List.mem_map.mp hc
    cases pe <;> exact ⟨rfl, rfl⟩
  · intro h
    unfold streamConversationCalls
    rw [h]
    simp [List.getLast?_concat]

/-- C5 witness: with no tool_use blocks in the completed message, the
message-complete call is last. -/
theorem c5_adapter_call_order_witness :
    (([textBlock "x"] : List JSValue).filter isToolUseBlock = []) ∧
    (streamConversationCalls ⟨[], [textBlock "x"], some "end_turn", "assistant"⟩).getLast? =
      some HandlerCall.message :=
  ⟨rfl, (c5_adapter_call_order _).2.2.2 rfl⟩

theorem bufFold (evs : List Event) : ∀ st : BufState,
    ((evs.foldl bufSend st).textChunks = st.textChunks ++ evs.filterMap chunkText) ∧
    ((evs.foldl bufSend st).events = st.events ++ evs) := by
  induction evs with
  | nil => intro st; simp
  | cons e rest ih =>
    intro st
    refine ⟨?_, ?_⟩
    · rw [List.foldl_cons, (ih (bufSend st e)).1]
      cases e <;> simp [bufSend, chunkText, List.append_assoc]
    · rw [List.foldl_cons, (ih (bufSend st e)).2]
      cases e <;> simp [bufSend, List.append_assoc]

/-- C7: in buffered mode the materialized text equals the in-order
concatenation of all chunk payloads (Hel then lo yields Hello), the event
log is preserved in full and in order, and the buffered HTTP response is a
single document carrying the conversation id, the concatenated text, the
product array, and the full event log of the session. -/
theorem c7_buffered_result :
    (∀ evs : List Event, bufGetResult (runBufferedStream evs) =
      ⟨String.join (evs.filterMap chunkText), evs, (runBufferedStream evs).products⟩) ∧
    (bufGetResult (runBufferedStream [.chunk "Hel", .chunk "lo"])).text = "Hello" ∧
    (∀ cfg script gateway, handleChatRequestBuffered cfg script gateway =
      ⟨cfg.conversationId,
        String.join ((handleChatSession cfg script gateway).events.filterMap chunkText),
        (runBufferedStream (handleChatSession cfg script gateway).events).products,
        (handleChatSession cfg script gateway).events⟩) := by
  have key : ∀ evs : List Event, bufGetResult (runBufferedStream evs) =
      ⟨String.join (evs.filterMap chunkText), evs, (runBufferedStream evs).products⟩ := by
    intro evs
    have h := bufFold evs ⟨[], [], []⟩
    unfold bufGetResult runBufferedStream
    rw [show (⟨[], [], []⟩ : BufState).textChunks = [] from rfl] at h
    simp only [List.nil_append] at h
    rw [h.1, h.2]
  refine ⟨key, ?_, ?_⟩
  · rfl
  · intro cfg script gateway
    unfold handleChatRequestBuffered
    rw [key]

theorem sessionLoopGo_le_six (script : Nat → ModelRound) (gateway : String → JSValue → ToolEnvelope) :
    ∀ (fuel : Nat) (st : SessState) (stop : Option String) (counter : Nat),
      counter ≤ 6 → (sessionLoopGo script gateway st stop counter fuel).2 ≤ 6 := by
  intro fuel
  induction fuel with
  | zero => intro st stop counter h; exact h
  | succ fuel ih =>
    intro st stop counter h
    by_cases hcond : (stop = some "end_turn" ∨ 6 ≤ counter)
    · rw [sessionLoopGo, if_pos hcond]; exact h
    · have h6 : ¬ 6 ≤ counter := fun hh => hcond (Or.inr hh)
      rw [sessionLoopGo, if_neg hcond]
      cases hs : (script counter).stopReason with
      | none => show counter + 1 ≤ 6; omega
      | some r => exact ih _ _ _ (by omega)

theorem sessionLoopGo_mono (script : Nat → ModelRound) (gateway : String → JSValue → ToolEnvelope) :
    ∀ (fuel : Nat) (st : SessState) (stop : Option String) (counter : Nat),
      counter ≤ (sessionLoopGo script gateway st stop counter fuel).2 := by
  intro fuel
  induction fuel with
  | zero => intro st stop counter; exact Nat.le_refl _
  | succ fuel ih =>
    intro st stop counter
    by_cases hcond : (stop = some "end_turn" ∨ 6 ≤ counter)
    · rw [sessionLoopGo, if_pos hcond]
    · rw [sessionLoopGo, if_neg hcond]
      cases hs : (script counter).stopReason with
      | none => show counter ≤ counter + 1; omega
      | some r => exact Nat.le_trans (Nat.le_succ _) (ih _ _ _)

theorem sessionLoopGo_all_tool_use (script : Nat → ModelRound)
    (gateway : String → JSValue → ToolEnvelope)
    (hall : ∀ i, (script i).stopReason = some "tool_use") :
    ∀ (fuel : Nat) (st : SessState) (stop : Option String) (counter : Nat),
      stop ≠ some "end_turn" → 6 ≤ counter + fuel → counter ≤ 6 →
      (sessionLoopGo script gateway st stop counter fuel).2 = 6 := by
  intro fuel
  induction fuel with
  | zero => intro st stop counter hs hf hc; show counter = 6; omega
  | succ fuel ih =>
    intro st stop counter hs hf hc
    by_cases h6 : 6 ≤ counter
    · rw [sessionLoopGo, if_pos (Or.inr h6)]; show counter = 6; omega
    · rw [sessionLoopGo, if_neg (fun hor => hor.elim hs h6)]
      cases hsr : (script counter).stopReason with
      | none =>
        rw [hall counter] at hsr
        exact Option.noConfusion hsr
      | some r =>
        have hr : r = "tool_use" := Option.some.inj (hsr.symm.trans (hall counter))
        subst hr
        exact ih _ _ _ (by decide) (by omega) (by omega)

theorem sessionLoopGo_none_at (script : Nat → ModelRound)
    (gateway : String → JSValue → ToolEnvelope) (k : Nat) (hk : k < 6)
    (hgood : ∀ i, i < k → (script i).stopReason ≠ none ∧ (script i).stopReason ≠ some "end_turn")
    (hnone : (script k).stopReason = none) :
    ∀ (fuel : Nat) (st : SessState) (stop : Option String) (counter : Nat),
      stop ≠ some "end_turn" → counter + fuel = 7 → counter ≤ k →
      (sessionLoopGo script gateway st stop counter fuel).2 = k + 1 := by
  intro fuel
  induction fuel with
  | zero => intro st stop counter hs hf hc; omega
  | succ fuel ih =>
    intro st stop counter hs hf hc
    have h6 : ¬ 6 ≤ counter := by omega
    rw [sessionLoopGo, if_neg (fun hor => hor.elim hs h6)]
    by_cases hck : counter = k
    · rw [hck, hnone]
    · have hlt : counter < k := by omega
      obtain ⟨hn, he⟩ := hgood counter hlt
      cases hsr : (script counter).stopReason with
      | none => exact absurd hsr hn
      | some r =>
        rw [hsr] at he
        exact ih _ _ _ (fun hh => he hh) (by omega) (by omega)

theorem foldl_pres {α σ : Type} (f : σ → α → σ) (P : σ → Prop)
    (hf : ∀ s a, P s → P (f s a)) : ∀ (l : List α) (s : σ), P s → P (l.foldl f s) := by
  intro l
  induction l with
  | nil => intro s h; exact h
  | cons a as ih => intro s h; exact ih _ (hf s a h)

theorem noDone_emitEv {st : SessState} {e : Event} (he : e ≠ Event.done)
    (h : ∀ x ∈ st.events, x ≠ Event.done) : ∀ x ∈ (emitEv st e).events, x ≠ Event.done := by
  intro x hx
  rcases List.mem_append.mp hx with h1 | h2
  · exact h x h1
  · rw [List.mem_singleton.mp h2]; exact he

theorem noDone_relay (st : SessState) (pe : ProvEvent)
    (h : ∀ x ∈ st.events, x ≠ Event.done) :
    ∀ x ∈ (relayProvEvent st pe).events, x ≠ Event.done := by
  cases pe with
  | textDelta s => exact noDone_emitEv (fun hh => Event.noConfusion hh) h
  | blockDone b =>
    show ∀ x ∈ (if isType b "text" = true then emitEv st (Event.contentBlockComplete b)
      else st).events, x ≠ Event.done
    by_cases hb : isType b "text" = true
    · rw [if_pos hb]; exact noDone_emitEv (fun hh => Event.noConfusion hh) h
    · rw [if_neg hb]; exact h

theorem noDone_onMessage (round : ModelRound) (st : SessState)
    (h : ∀ x ∈ st.events, x ≠ Event.done) :
    ∀ x ∈ (onMessageStep round st).events, x ≠ Event.done := by
  intro x hx
  rcases List.mem_append.mp hx with h1 | h2
  · exact h x h1
  · rw [List.mem_singleton.mp h2]; exact fun hh => Event.noConfusion hh

theorem reconcileTool_events (env : ToolEnvelope) (toolUseId : String) (st : SessState) :
    (reconcileTool env toolUseId st).events = st.events := by
  unfold reconcileTool
  by_cases hb : jsTruthy env.error = true
  · rw [if_pos hb]
  · rw [if_neg hb]

theorem noDone_toolStep (gateway : String → JSValue → ToolEnvelope) (st : SessState) (b : JSValue)
    (h : ∀ x ∈ st.events, x ≠ Event.done) :
    ∀ x ∈ (toolStep gateway st b).events, x ≠ Event.done := by
  unfold toolStep
  by_cases hb : isToolUseBlock b = true
  · rw [if_pos hb]
    apply noDone_emitEv (fun hh => Event.noConfusion hh)
    rw [reconcileTool_events]
    show ∀ x ∈ (emitEv st _).events, x ≠ Event.done
    exact noDone_emitEv (fun hh => Event.noConfusion hh) h
  · rw [if_neg hb]; exact h

theorem noDone_runInvocation (gateway : String → JSValue → ToolEnvelope) (round : ModelRound)
    (st : SessState) (h : ∀ x ∈ st.events, x ≠ Event.done) :
    ∀ x ∈ (runInvocation gateway round st).events, x ≠ Event.done := by
  unfold runInvocation
  apply foldl_pres (toolStep gateway) (fun s => ∀ x ∈ s.events, x ≠ Event.done)
    (fun s a hp => noDone_toolStep gateway s a hp)
  apply noDone_onMessage
  exact foldl_pres relayProvEvent (fun s => ∀ x ∈ s.events, x ≠ Event.done)
    (fun s a hp => noDone_relay s a hp) _ _ h

theorem noDone_sessionLoopGo (script : Nat → ModelRound) (gateway : String → JSValue → ToolEnvelope) :
    ∀ (fuel : Nat) (st : SessState) (stop : Option String) (counter : Nat),
      (∀ x ∈ st.events, x ≠ Event.done) →
      ∀ x ∈ (sessionLoopGo script gateway st stop counter fuel).1.events, x ≠ Event.done := by
  intro fuel
  induction fuel with
  | zero => intro st stop counter h; exact h
  | succ fuel ih =>
    intro st stop counter h
    by_cases hcond : (stop = some "end_turn" ∨ 6 ≤ counter)
    · rw [sessionLoopGo, if_pos hcond]; exact h
    · rw [sessionLoopGo, if_neg hcond]
      cases hs : (script counter).stopReason with
      | none => exact noDone_runInvocation gateway _ st h
      | some r => exact ih _ _ _ (noDone_runInvocation gateway _ st h)

theorem sessionLoopGo_start_pos (script : Nat → ModelRound)
    (gateway : String → JSValue → ToolEnvelope) (st : SessState) :
    1 ≤ (sessionLoopGo script gateway st none 0 7).2 := by
  rw [show (7 : Nat) = 6 + 1 from rfl, sessionLoopGo,
    if_neg (by simp : ¬((none : Option String) = some "end_turn" ∨ 6 ≤ 0))]
  cases hs : (script 0).stopReason with
  | none => exact Nat.le_refl _
  | some r => exact sessionLoopGo_mono script gateway 6 _ _ 1

/-- C1: the turn loop invokes the model at most 6 times per session; when
every model response reports stop reason tool_use (never end_turn) the loop
exits exactly at the 6th invocation; and when the response of round k
reports no stop reason at all (after rounds that neither ended the turn nor
lacked a stop reason), the loop exits immediately after that invocation,
having made k+1 invocations. -/
theorem c1_turn_loop_bound :
    (∀ cfg script gateway, (handleChatSession cfg script gateway).invocations ≤ 6) ∧
    (∀ cfg script gateway, authGateTriggered cfg = false →
      (∀ i, (script i).stopReason = some "tool_use") →
      (handleChatSession cfg script gateway).invocations = 6) ∧
    (∀ cfg script gateway (k : Nat), authGateTriggered cfg = false → k < 6 →
      (∀ i, i < k → (script i).stopReason ≠ none ∧ (script i).stopReason ≠ some "end_turn") →
      (script k).stopReason = none →
      (handleChatSession cfg script gateway).invocations = k + 1) := by
  refine ⟨?_, ?_, ?_⟩
  · intro cfg script gateway
    unfold handleChatSession
    by_cases hg : authGateTriggered cfg = true
    · rw [if_pos hg]; exact Nat.zero_le _
    · rw [if_neg hg]
      exact sessionLoopGo_le_six script gateway 7 _ none 0 (Nat.zero_le _)
  · intro cfg script gateway hg hall
    unfold handleChatSession
    rw [if_neg (by rw [hg]; exact fun hh => Bool.noConfusion hh)]
    exact sessionLoopGo_all_tool_use script gateway hall 7 _ none 0
      (fun hh => Option.noConfusion hh) (by omega) (by omega)
  · intro cfg script gateway k hg hk hgood hnone
    unfold handleChatSession
    rw [if_neg (by rw [hg]; exact fun hh => Bool.noConfusion hh)]
    exact sessionLoopGo_none_at script gateway k hk hgood hnone 7 _ none 0
      (fun hh => Option.noConfusion hh) (by omega) (by omega)

/-- C1 witness: a session whose provider always answers with stop reason
tool_use makes exactly 6 model invocations, and one whose first response
has no stop reason at all makes exactly 1. -/
theorem c1_turn_loop_bound_witness :
    (authGateTriggered ⟨"hello", "c", "s", "k", none, none, "ch", true, [], fun _ => none⟩ = false ∧
      (∀ i : Nat, ((fun _ : Nat => (⟨[], [], some "tool_use", "assistant"⟩ : ModelRound)) i).stopReason = some "tool_use") ∧
      (handleChatSession ⟨"hello", "c", "s", "k", none, none, "ch", true, [], fun _ => none⟩
        (fun _ => ⟨[], [], some "tool_use", "assistant"⟩)
        (fun _ _ => ⟨.vnull, .vnull, []⟩)).invocations = 6) ∧
    ((handleChatSession ⟨"hello", "c", "s", "k", none, none, "ch", true, [], fun _ => none⟩
        (fun _ => ⟨[], [], none, "assistant"⟩)
        (fun _ _ => ⟨.vnull, .vnull, []⟩)).invocations = 1) :=
  ⟨⟨by decide, fun _ => rfl,
    c1_turn_loop_bound.2.1 _ _ _ (by decide) (fun _ => rfl)⟩,
   c1_turn_loop_bound.2.2 _ _ _ 0 (by decide) (by decide)
     (fun i hi => absurd hi (Nat.not_lt_zero i)) rfl⟩

/-- C2: for a non-empty trimmed message, the session takes exactly one of
the two paths: the authorization short-circuit runs precisely when account
intent is detected without a valid customer token, it makes zero model
invocations and emits the done event; the normal turn path makes at least
one model invocation and never emits done. -/
theorem c2_exactly_one_path (cfg : SessionConfig) (script : Nat → ModelRound)
    (gateway : String → JSValue → ToolEnvelope) (hmsg : cfg.userMessage ≠ "") :
    ((handleChatSession cfg script gateway).tookAuthPath = authGateTriggered cfg) ∧
    ((handleChatSession cfg script gateway).tookAuthPath = true →
      (handleChatSession cfg script gateway).invocations = 0 ∧
      Event.done ∈ (handleChatSession cfg script gateway).events) ∧
    ((handleChatSession cfg script gateway).tookAuthPath = false →
      1 ≤ (handleChatSession cfg script gateway).invocations ∧
      Event.done ∉ (handleChatSession cfg script gateway).events) ∧
    (((handleChatSession cfg script gateway).invocations = 0 ∧
        Event.done ∈ (handleChatSession cfg script gateway).events) ∨
      (1 ≤ (handleChatSession cfg script gateway).invocations ∧
        Event.done ∉ (handleChatSession cfg script gateway).events)) ∧
    ¬ (((handleChatSession cfg script gateway).invocations = 0) ∧
        1 ≤ (handleChatSession cfg script gateway).invocations) := by
  cases hg : authGateTriggered cfg with
  | true =>
    have hres : handleChatSession cfg script gateway =
        { events := [.id cfg.conversationId,
            .chunk (authPromptText (generateAuthUrl cfg.conversationId cfg.shopId cfg.clientId
              cfg.dbAuthorizationUrl cfg.challenge cfg.storeOk).url),
            .messageComplete, .done]
          saved := [("user", cfg.userMessage),
            ("assistant", authPromptText (generateAuthUrl cfg.conversationId cfg.shopId cfg.clientId
              cfg.dbAuthorizationUrl cfg.challenge cfg.storeOk).url)]
          history := []
          products := []
          toolCalls := 0
          invocations := 0
          tookAuthPath := true } := by
      unfold handleChatSession
      rw [if_pos hg]
    rw [hres]
    refine ⟨rfl, fun _ => ⟨rfl, ?_⟩, fun hh => Bool.noConfusion hh, ?_, ?_⟩
    · show Event.done ∈ [_, _, _, Event.done]
      simp
    · exact Or.inl ⟨rfl, by show Event.done ∈ [_, _, _, Event.done]; simp⟩
    · intro ⟨h0, h1⟩
      rw [h0] at h1
      exact absurd h1 (by decide)
  | false =>
    have hres : handleChatSession cfg script gateway =
        { events := (sessionLoopGo script gateway
            ⟨[.id cfg.conversationId], [("user", cfg.userMessage)],
              (cfg.priorMessages ++ [("user", cfg.userMessage)]).map (formatDbMessage cfg.parseJson),
              [], 0⟩ none 0 7).1.events ++ [.endTurn] ++
            (if (sessionLoopGo script gateway
                ⟨[.id cfg.conversationId], [("user", cfg.userMessage)],
                  (cfg.priorMessages ++ [("user", cfg.userMessage)]).map (formatDbMessage cfg.parseJson),
                  [], 0⟩ none 0 7).1.products.isEmpty then []
             else [.productResults (sessionLoopGo script gateway
                ⟨[.id cfg.conversationId], [("user", cfg.userMessage)],
                  (cfg.priorMessages ++ [("user", cfg.userMessage)]).map (formatDbMessage cfg.parseJson),
                  [], 0⟩ none 0 7).1.products])
          saved := (sessionLoopGo script gateway
            ⟨[.id cfg.conversationId], [("user", cfg.userMessage)],
              (cfg.priorMessages ++ [("user", cfg.userMessage)]).map (formatDbMessage cfg.parseJson),
              [], 0⟩ none 0 7).1.saved
          history := (sessionLoopGo script gateway
            ⟨[.id cfg.conversationId], [("user", cfg.userMessage)],
              (cfg.priorMessages ++ [("user", cfg.userMessage)]).map (formatDbMessage cfg.parseJson),
              [], 0⟩ none 0 7).1.history
          products := (sessionLoopGo script gateway
            ⟨[.id cfg.conversationId], [("user", cfg.userMessage)],
              (cfg.priorMessages ++ [("user", cfg.userMessage)]).map (formatDbMessage cfg.parseJson),
              [], 0⟩ none 0 7).1.products
          toolCalls := (sessionLoopGo script gateway
            ⟨[.id cfg.conversationId], [("user", cfg.userMessage)],
              (cfg.priorMessages ++ [("user", cfg.userMessage)]).map (formatDbMessage cfg.parseJson),
              [], 0⟩ none 0 7).1.toolCalls
          invocations := (sessionLoopGo script gateway
            ⟨[.id cfg.conversationId], [("user", cfg.userMessage)],
              (cfg.priorMessages ++ [("user", cfg.userMessage)]).map (formatDbMessage cfg.parseJson),
              [], 0⟩ none 0 7).2
          tookAuthPath := false } := by
      unfold handleChatSession
      rw [if_neg (by rw [hg]; exact fun hh => Bool.noConfusion hh)]
    have hpos : 1 ≤ (handleChatSession cfg script gateway).invocations := by
      rw [hres]
      exact sessionLoopGo_start_pos script gateway _
    have hnd : Event.done ∉ (handleChatSession cfg script gateway).events := by
      rw [hres]
      intro hmem
      have hinner : ∀ x ∈ (sessionLoopGo script gateway
          ⟨[.id cfg.conversationId], [("user", cfg.userMessage)],
            (cfg.priorMessages ++ [("user", cfg.userMessage)]).map (formatDbMessage cfg.parseJson),
            [], 0⟩ none 0 7).1.events, x ≠ Event.done := by
        apply noDone_sessionLoopGo
        intro x hx
        rw [List.mem_singleton.mp hx]
        exact fun hh => Event.noConfusion hh
      rcases List.mem_append.mp hmem with h1 | h2
      · rcases List.mem_append.mp h1 with h3 | h4
        · exact hinner _ h3 rfl
        · exact Event.noConfusion (List.mem_singleton.mp h4)
      · by_cases hp : (sessionLoopGo script gateway
            ⟨[.id cfg.conversationId], [("user", cfg.userMessage)],
              (cfg.priorMessages ++ [("user", cfg.userMessage)]).map (formatDbMessage cfg.parseJson),
              [], 0⟩ none 0 7).1.products.isEmpty
        · rw [if_pos hp] at h2
          exact absurd h2 (List.not_mem_nil _)
        · rw [if_neg hp] at h2
          exact Event.noConfusion (List.mem_singleton.mp h2)
    have hauth : (handleChatSession cfg script gateway).tookAuthPath = false := by
      rw [hres]
    refine ⟨hauth, fun hh => ?_, fun _ => ⟨hpos, hnd⟩, Or.inr ⟨hpos, hnd⟩, ?_⟩
    · rw [hauth] at hh; exact Bool.noConfusion hh
    · intro ⟨h0, h1⟩
      rw [h0] at h1
      exact absurd h1 (by decide)

/-- C2 witness: a plain greeting with no stored token takes the normal
model path, and an order-tracking request with no token takes the
authorization short-circuit. -/
theorem c2_exactly_one_path_witness :
    (("hello" : String) ≠ "" ∧
      (handleChatSession ⟨"hello", "c", "s", "k", none, none, "ch", true, [], fun _ => none⟩
        (fun _ => ⟨[], [], some "end_turn", "assistant"⟩)
        (fun _ _ => ⟨.vnull, .vnull, []⟩)).tookAuthPath =
        authGateTriggered ⟨"hello", "c", "s", "k", none, none, "ch", true, [], fun _ => none⟩) ∧
    (("track my order" : String) ≠ "" ∧
      (handleChatSession ⟨"track my order", "c", "s", "k", none, none, "ch", true, [], fun _ => none⟩
        (fun _ => ⟨[], [], some "end_turn", "assistant"⟩)
        (fun _ _ => ⟨.vnull, .vnull, []⟩)).tookAuthPath =
        authGateTriggered ⟨"track my order", "c", "s", "k", none, none, "ch", true, [], fun _ => none⟩) :=
  ⟨⟨by decide, (c2_exactly_one_path _ _ _ (by decide)).1⟩,
   ⟨by decide, (c2_exactly_one_path _ _ _ (by decide)).1⟩⟩

set_option maxRecDepth 20000 in
theorem generateAuthUrl_default_url (cid sid clid ch : String) (so : Bool) :
    (generateAuthUrl cid sid clid none ch so).url =
    "https://accounts.shopify.com/oauth/authorize?" ++
      (("client_id=" ++ encForm clid ++ "&") ++
        (("scope=customer-account-mcp-api%3Afull" ++ "&") ++
          (("redirect_uri=https%3A%2F%2Fshopify-agent-003f.webgeeksolutions.com.au%2Fapi%2Fauth%2Fcallback" ++ "&") ++
            (("response_type=code" ++ "&") ++
              (("state=" ++ encForm (cid ++ "-" ++ sid) ++ "&") ++
                (("code_challenge=" ++ encForm ch ++ "&") ++
                  "code_challenge_method=S256")))))) := rfl

set_option maxRecDepth 20000 in
/-- C3: for the message "track my order" with no customer token stored for
the conversation, the session emits exactly id, one chunk whose text embeds
an authorization URL carrying code_challenge_method=S256, message_complete
and done; it makes no model invocation and no tool call, and appends the
raw user message followed by the assistant authorization prompt to the
store. -/
theorem c3_track_order_auth_prompt (cid sid clid ch : String) (so : Bool)
    (prior : List (String × String)) (pj : String → Option JSValue)
    (script : Nat → ModelRound) (gateway : String → JSValue → ToolEnvelope) :
    handleChatSession ⟨"track my order", cid, sid, clid, none, none, ch, so, prior, pj⟩
        script gateway =
      ⟨[.id cid, .chunk (authPromptText (generateAuthUrl cid sid clid none ch so).url),
        .messageComplete, .done],
       [("user", "track my order"),
        ("assistant", authPromptText (generateAuthUrl cid sid clid none ch so).url)],
       [], [], 0, 0, true⟩ ∧
    strContains (authPromptText (generateAuthUrl cid sid clid none ch so).url)
      "code_challenge_method=S256" = true := by
  constructor
  · rfl
  · rw [generateAuthUrl_default_url]
    unfold authPromptText
    apply strContains_app_right
    apply strContains_app_left
    apply strContains_app_left
    apply strContains_app_left
    apply strContains_app_left
    apply strContains_app_left
    apply strContains_app_left
    apply strContains_app_left
    apply strContains_app_left
    exact strContains_self _

set_option maxRecDepth 20000 in
/-- C6: when the model requests a tool and the Tool Gateway's envelope
carries the truthy error value "not found", the failure path folds an
error-tagged ToolResult turn into the working history, a new_message event
is still emitted, the loop runs a second model round, and end_turn is still
emitted; and in general a truthy error field selects the
failure-reconciliation fold while a falsy one selects the
success-reconciliation fold that also merges the display items. -/
theorem c6_tool_error_recovery (cid name tid : String) (args : JSValue)
    (pj : String → Option JSValue) :
    (handleChatSession ⟨"hello", cid, "sh", "ck", none, none, "ch", true, [], pj⟩
      (fun i => if i = 0 then ⟨[], [toolUseBlock tid name args], some "tool_use", "assistant"⟩
                else ⟨[.textDelta "ok"], [textBlock "All done"], some "end_turn", "assistant"⟩)
      (fun _ _ => ⟨.vstr "not found", .vnull, []⟩) =
      ⟨[.id cid, .messageComplete,
        .toolUse ("Calling tool: " ++ name ++ " with arguments: " ++ jsonStringify args),
        .newMessage, .chunk "ok", .messageComplete, .endTurn],
       [("user", "hello"),
        ("assistant", jsonStringify (.varr [toolUseBlock tid name args])),
        ("assistant", jsonStringify (.varr [textBlock "All done"]))],
       [formatDbMessage pj ("user", "hello"),
        ⟨"assistant", [toolUseBlock tid name args]⟩,
        ⟨"user", [toolResultBlock tid (.vstr "not found") true]⟩,
        ⟨"assistant", [textBlock "All done"]⟩],
       [], 1, 2, false⟩) ∧
    (∀ (env : ToolEnvelope) (t : String) (st : SessState),
      (jsTruthy env.error = true → reconcileTool env t st =
        { st with history := st.history ++ [⟨"user", [toolResultBlock t env.error true]⟩] }) ∧
      (jsTruthy env.error = false → reconcileTool env t st =
        { st with
          history := st.history ++ [⟨"user", [toolResultBlock t env.payload false]⟩]
          products := st.products ++ env.displayItems })) := by
  refine ⟨rfl, fun env t st => ⟨fun h => ?_, fun h => ?_⟩⟩
  · unfold reconcileTool
    rw [if_pos h]
  · unfold reconcileTool
    rw [if_neg (by rw [h]; exact fun hh => Bool.noConfusion hh)]

/-- C6 witness: the failure fold applied to the concrete envelope with
error "not found" and an empty session state. -/
theorem c6_tool_error_recovery_witness :
    jsTruthy (JSValue.vstr "not found") = true ∧
    reconcileTool ⟨.vstr "not found", .vnull, []⟩ "t1" ⟨[], [], [], [], 0⟩ =
      ⟨[], [], [⟨"user", [toolResultBlock "t1" (.vstr "not found") true]⟩], [], 0⟩ :=
  ⟨rfl,
    ((c6_tool_error_recovery "c" "X" "t1" .vnull (fun _ => none)).2
      ⟨.vstr "not found", .vnull, []⟩ "t1" ⟨[], [], [], [], 0⟩).1 rfl⟩

end ShopAgent
